import Mathlib

/-!
Verification of the Smart Study Planner web application (`src/app.py`).

The application is a Flask app; its route handlers in `app.py` implement the
operations the specification talks about: adding tasks and exams, completing
tasks (with estimator retraining), updating exam progress, completing exams,
and managing saved schedules.  The planning core (`planner_ai`: `predict_time`,
`retrain_model`, `generate_schedule`, ...) is a module of the repository that
is not among the provided sources; where a handler calls into it, the call is
modelled as an explicit function parameter or as an emitted event, so that the
theorems quantify over every possible behaviour of the missing core.

Modelling conventions:
* Python floats are modelled as rationals (`ℚ`); Python ints as `ℤ`.
* Python's `round` (banker's rounding, round-half-to-even) is `pythonRound`;
  `int(...)` truncation toward zero is `pyInt`.
* `datetime` values are modelled by `Date` (year/month/day); the current
  datetime `datetime.now()` is passed to each operation as a `now` parameter.
* `datetime.strptime(s, "%Y-%m-%d")` is modelled by `parseDateYMD`, following
  CPython's `_strptime` regexes (`%Y` = exactly four digits, `%m` = one or two
  digits in 1..12, `%d` = one or two digits in 1..31) plus the `datetime`
  constructor's day-of-month validation (month lengths, leap years).
* Each handler takes the freshly loaded persisted state (task list, exam
  list, schedule list) as an argument and returns the state it saves back.
-/

namespace SmartStudyPlanner

/-! ### Python numeric primitives -/

/-- Python `int(x)` applied to a float: truncation toward zero. -/
def pyInt (q : ℚ) : ℤ :=
  if q < 0 then ⌈q⌉ else ⌊q⌋

/-- Python 3 `round(x)` on a float: round half to even (banker's rounding). -/
def pythonRound (q : ℚ) : ℤ :=
  if q - ⌊q⌋ < 1/2 then ⌊q⌋
  else if 1/2 < q - ⌊q⌋ then ⌊q⌋ + 1
  else if ⌊q⌋ % 2 = 0 then ⌊q⌋ else ⌊q⌋ + 1

/-! ### Dates and `strptime("%Y-%m-%d")` -/

/-- The date part of a Python `datetime` value. -/
structure Date where
  year : ℕ
  month : ℕ
  day : ℕ
deriving DecidableEq, Repr

/-- Gregorian leap-year test, as used by `datetime`. -/
def isLeapYear (y : ℕ) : Bool :=
  y % 4 = 0 && (y % 100 ≠ 0 || y % 400 = 0)

/-- Number of days in a month, as validated by the `datetime` constructor. -/
def daysInMonth (y m : ℕ) : ℕ :=
  if m = 2 then (if isLeapYear y then 29 else 28)
  else if m = 4 || m = 6 || m = 9 || m = 11 then 30
  else 31

/-- Split a character list on a separator character (like `str.split('-')`). -/
def splitOnChar (sep : Char) : List Char → List (List Char)
  | [] => [[]]
  | c :: cs =>
    let r := splitOnChar sep cs
    if c = sep then [] :: r
    else
      match r with
      | [] => [[c]]
      | g :: gs => (c :: g) :: gs

/-- Numeric value of a list of decimal digit characters. -/
def digitsToNat (l : List Char) : ℕ :=
  l.foldl (fun n c => 10 * n + (c.toNat - 48)) 0

/-- Model of `datetime.strptime(s, "%Y-%m-%d")`: CPython matches the regex
`(\d\d\d\d)-(1[0-2]|0[1-9]|[1-9])-(3[01]|[12]\d|0[1-9]|[1-9])` against the
whole string and then the `datetime` constructor validates the day against
the month length; any failure raises, which `app.py` catches. Here a failure
is `none`. -/
def parseDateYMD (s : String) : Option Date :=
  match splitOnChar '-' s.data with
  | [y, m, d] =>
    if y.length = 4 && y.all Char.isDigit &&
       (m.length = 1 || m.length = 2) && m.all Char.isDigit &&
       (d.length = 1 || d.length = 2) && d.all Char.isDigit then
      let yn := digitsToNat y
      let mn := digitsToNat m
      let dn := digitsToNat d
      if 1 ≤ yn && 1 ≤ mn && mn ≤ 12 && 1 ≤ dn && dn ≤ 31 &&
         dn ≤ daysInMonth yn mn then
        some ⟨yn, mn, dn⟩
      else none
    else none
  | _ => none

/-! ### Data model (mirroring the dictionaries built in `app.py`) -/

/-- A subject record, as built by the save-preferences handler. -/
structure Subject where
  name : String
  difficulty : ℤ
  desired_grade : String
  current_grade : String
deriving DecidableEq, Repr

/-- A task record, with the exact fields of the `new_task` dictionary of the
add-task handler (`hours` is the stored predicted-hours field). -/
structure Task where
  id : ℤ
  name : String
  deadline : Date
  hours : ℚ
  priority : String
  complexity : ℤ
  past_hours : ℚ
  min_hours : ℚ
  matched_subject : Option Subject
  completed : Bool
  actual_hours : Option ℚ
  completion_date : Option Date
deriving DecidableEq, Repr

/-- An exam record, with the exact fields appended by the add-exam handler. -/
structure Exam where
  id : ℤ
  subject_name : String
  exam_name : String
  exam_date : Date
  desired_grade : String
  confidence : ℤ
  progress_hours : ℚ
  predicted_hours : ℚ
  completed : Bool
  actual_hours_spent : Option ℚ
deriving DecidableEq, Repr

/-- A saved-schedule record, with the fields of the dictionary appended by
`add_saved_schedule`.  The items are whatever `generate_schedule` produced;
their type is a parameter since `generate_schedule` lives in `planner_ai`. -/
structure SavedSchedule (α : Type) where
  id : ℤ
  name : String
  created_at : String
  updated_at : String
  items : List α
deriving DecidableEq, Repr

/-- One call to `retrain_model`, with the argument dictionary the
complete-task handler passes to it. -/
structure RetrainEvent where
  complexity : ℤ
  past_hours : ℚ
  priority : ℤ
  actual_hours : ℚ
deriving DecidableEq, Repr

/-- `{'high':3, 'medium':2, 'low':1}.get(priority, 2)`. -/
def priorityNum (p : String) : ℤ :=
  if p = "high" then 3
  else if p = "medium" then 2
  else if p = "low" then 1
  else 2

/-- Python `max(l + [default])` (also `max(l, default=default)` when `l` and
the default only matter together): the maximum of `default` and the list. -/
def pyMaxD (default : ℤ) (l : List ℤ) : ℤ :=
  l.foldl max default

/-! ### The route handlers of `app.py` -/

/-- The form fields read by the add-task branch of `home` (already through
`int(...)` / `float(...)`, which is where Python's type conversion happens;
the subject is `request.form.get('subject_name', None)`). -/
structure AddTaskForm where
  task : String
  deadline : String
  complexity : ℤ
  past_hours : ℚ
  min_hours : ℚ
  priority : String
  subject_name : Option String
deriving Repr

/-- The add-task branch of `home` (`app.py` lines 493–522).  `predict` stands
for `predict_time` applied to the global `task_model`; it is a parameter
because `planner_ai` is not among the sources.  Returns the task list that
`save_tasks` persists. -/
def addTask (predict : ℤ → ℚ → ℤ → Option Subject → ℚ)
    (tasks : List Task) (subjects : List Subject) (now : Date)
    (f : AddTaskForm) : List Task :=
  let next_id := pyMaxD 0 (tasks.map Task.id) + 1
  let complexity := max 0 (min 10 f.complexity)
  let past_hours := max 0 f.past_hours
  let min_hours := max 0 f.min_hours
  let matched_subject := subjects.find? (fun s => some s.name = f.subject_name)
  let priority_num := priorityNum f.priority
  let predicted := predict complexity past_hours priority_num matched_subject
  let predicted_hours := max min_hours predicted
  let deadline_dt := (parseDateYMD f.deadline).getD now
  let new_task : Task :=
    { id := next_id, name := f.task.trim, deadline := deadline_dt,
      hours := predicted_hours, priority := f.priority,
      complexity := complexity, past_hours := past_hours,
      min_hours := min_hours, matched_subject := matched_subject,
      completed := false, actual_hours := none, completion_date := none }
  tasks ++ [new_task]

/-- The complete-task branch of `home` (`app.py` lines 525–549).  Returns the
task list that `save_tasks` persists together with the list of `retrain_model`
calls the loop makes (one per task whose id matches, in list order), each with
the argument dictionary passed to `retrain_model`. -/
def completeTask (tasks : List Task) (task_id : ℤ) (hours minutes : ℤ)
    (today : Date) : List Task × List RetrainEvent :=
  let rounded_minutes := pythonRound ((minutes : ℚ) / 5) * 5
  let h := if rounded_minutes = 60 then hours + 1 else hours
  let m := if rounded_minutes = 60 then 0 else rounded_minutes
  let actual_hours : ℚ := (h : ℚ) + (m : ℚ) / 60
  let tasks' := tasks.map (fun t =>
    if t.id = task_id then
      { t with completed := true, actual_hours := some actual_hours,
               completion_date := some today }
    else t)
  let events := (tasks.filter (fun t => t.id = task_id)).map (fun t =>
    { complexity := t.complexity, past_hours := t.past_hours,
      priority := priorityNum t.priority, actual_hours := actual_hours })
  (tasks', events)

/-- The form fields read by the add-exam branch of `home`. -/
structure AddExamForm where
  exam_name : String
  exam_subject : String
  exam_date : String
  exam_desired : String
  exam_confidence : ℤ
  exam_progress : ℚ
deriving Repr

/-- The add-exam branch of `home` (`app.py` lines 552–572).  Returns the exam
list that `save_exams` persists. -/
def addExam (exams : List Exam) (now : Date) (f : AddExamForm) : List Exam :=
  let next_eid := pyMaxD 0 (exams.map Exam.id) + 1
  let progress := max 0 f.exam_progress
  let exam_dt := (parseDateYMD f.exam_date).getD now
  exams ++ [{ id := next_eid, subject_name := f.exam_subject,
              exam_name := f.exam_name.trim, exam_date := exam_dt,
              desired_grade := f.exam_desired, confidence := f.exam_confidence,
              progress_hours := progress, predicted_hours := 0,
              completed := false, actual_hours_spent := none }]

/-- The update-exam-progress branch of `home` (`app.py` lines 575–584). -/
def updateExamProgress (exams : List Exam) (eid : ℤ) (d : ℚ) : List Exam :=
  let add_p := max 0 d
  exams.map (fun e =>
    if e.id = eid ∧ e.completed = false then
      { e with progress_hours := e.progress_hours + add_p }
    else e)

/-- The complete-exam branch of `home` (`app.py` lines 587–597). -/
def completeExam (exams : List Exam) (eid : ℤ) (actual : ℚ) : List Exam :=
  let a := max 0 actual
  exams.map (fun e =>
    if e.id = eid then
      { e with completed := true, actual_hours_spent := some a }
    else e)

/-- The three operations of `app.py` that write the persisted exam list. -/
inductive ExamOp where
  | add (now : Date) (f : AddExamForm)
  | updateProgress (eid : ℤ) (d : ℚ)
  | complete (eid : ℤ) (actual : ℚ)

/-- Apply one exam-writing operation to the stored exam list. -/
def applyExamOp (exams : List Exam) : ExamOp → List Exam
  | .add now f => addExam exams now f
  | .updateProgress eid d => updateExamProgress exams eid d
  | .complete eid actual => completeExam exams eid actual

/-! ### Saved-schedule helpers of `app.py` -/

/-- `MAX_SAVED_SCHEDULES` (`app.py` line 20). -/
def MAX_SAVED_SCHEDULES : ℕ := 5

/-- `new_id = (max([s["id"] for s in schedules], default=0) + 1) if schedules
else 1` (`app.py` line 39). -/
def newScheduleId {α : Type} : List (SavedSchedule α) → ℤ
  | [] => 1
  | s :: ss => pyMaxD s.id (ss.map SavedSchedule.id) + 1

/-- `add_saved_schedule` (`app.py` lines 35–48).  `now` models the
`datetime.now().strftime(...)` timestamp string.  Returns the schedule list
left in the store together with the `(ok, message)` pair the function
returns; when the cap is hit the function returns before `save_all_schedules`
runs, so the store keeps the loaded list. -/
def addSavedSchedule {α : Type} (name : String) (items : List α) (now : String)
    (schedules : List (SavedSchedule α)) :
    List (SavedSchedule α) × Bool × String :=
  if MAX_SAVED_SCHEDULES ≤ schedules.length then
    (schedules, false, "You can only save up to 5 schedules.")
  else
    let new_id := newScheduleId schedules
    let nm := if name.trim ≠ "" then name else "Schedule " ++ toString new_id
    (schedules ++ [{ id := new_id, name := nm, created_at := now,
                     updated_at := now, items := items }],
     true, "Saved.")

/-- `refresh_all_saved_schedules` (`app.py` lines 55–70).  `regenerated` is
the schedule produced by `generate_schedule` over the freshly loaded tasks,
exam-prep tasks and preferences (all computed in `planner_ai`, hence a
parameter); `now` is the new timestamp string.  When no schedules are stored
the function returns before saving, leaving the store unchanged. -/
def refreshAllSavedSchedules {α : Type} (regenerated : List α) (now : String)
    (schedules : List (SavedSchedule α)) : List (SavedSchedule α) :=
  if schedules.isEmpty then schedules
  else schedules.map (fun s => { s with items := regenerated, updated_at := now })

/-- `format_hours` (`app.py` lines 72–80). -/
def formatHours : Option ℚ → String
  | none => "N/A"
  | some hours =>
    let h : ℤ := pyInt hours
    let m : ℤ := pythonRound ((hours - (h : ℚ)) * 60 / 5) * 5
    let h2 := if m = 60 then h + 1 else h
    let m2 := if m = 60 then 0 else m
    toString h2 ++ " hours " ++ toString m2 ++ " minutes"

/-! ### Sample data for concrete witnesses -/

def sampleSchedule : SavedSchedule ℕ :=
  ⟨1, "plan A", "2025-06-01 10:00:00", "2025-06-01 10:00:00", [1, 2]⟩

def fiveSchedules : List (SavedSchedule ℕ) :=
  [⟨1, "a", "c", "u", []⟩, ⟨2, "b", "c", "u", []⟩, ⟨3, "c", "c", "u", []⟩,
   ⟨4, "d", "c", "u", []⟩, ⟨5, "e", "c", "u", []⟩]


def sampleTask : Task :=
  { id := 1, name := "essay", deadline := ⟨2025, 7, 1⟩, hours := 3,
    priority := "high", complexity := 4, past_hours := 2, min_hours := 1,
    matched_subject := none, completed := false, actual_hours := none,
    completion_date := none }

def sampleExam : Exam :=
  { id := 1, subject_name := "Math", exam_name := "Final",
    exam_date := ⟨2025, 8, 1⟩, desired_grade := "A or above", confidence := 3,
    progress_hours := 2, predicted_hours := 0, completed := false,
    actual_hours_spent := none }

def sampleExamDone : Exam :=
  { id := 2, subject_name := "Math", exam_name := "Quiz",
    exam_date := ⟨2025, 5, 1⟩, desired_grade := "B", confidence := 4,
    progress_hours := 6, predicted_hours := 0, completed := true,
    actual_hours_spent := some 6 }

def sampleTaskDone : Task :=
  { id := 7, name := "old essay", deadline := ⟨2025, 5, 1⟩, hours := 2,
    priority := "low", complexity := 2, past_hours := 1, min_hours := 1,
    matched_subject := none, completed := true, actual_hours := some 2,
    completion_date := some ⟨2025, 4, 30⟩ }

def sampleTaskForm : AddTaskForm :=
  { task := "revise notes", deadline := "2025-07-10", complexity := 5,
    past_hours := 1, min_hours := 2, priority := "medium",
    subject_name := some "Math" }

def sampleExamForm : AddExamForm :=
  { exam_name := "Midterm", exam_subject := "Math", exam_date := "2025-09-01",
    exam_desired := "B", exam_confidence := 2, exam_progress := 0 }

/-! ### Helper lemmas -/

/-- Banker's rounding is within half of its argument. -/
lemma pythonRound_abs_sub_le (q : ℚ) : |(pythonRound q : ℚ) - q| ≤ 1/2 := by
  have h1 : ((⌊q⌋ : ℤ) : ℚ) ≤ q := Int.floor_le q
  have h2 : q < (⌊q⌋ : ℤ) + 1 := Int.lt_floor_add_one q
  unfold pythonRound
  split_ifs with ha hb hc <;>
    · rw [abs_le]
      constructor <;> push_cast <;> linarith

/-- `pyInt` on a non-negative rational is the floor. -/
lemma pyInt_of_nonneg {q : ℚ} (hq : 0 ≤ q) : pyInt q = ⌊q⌋ := by
  unfold pyInt
  rw [if_neg (not_lt.mpr hq)]

/-- Every element of a list is at most the running `max` fold. -/
lemma le_pyMaxD (d : ℤ) (l : List ℤ) :
    d ≤ pyMaxD d l ∧ ∀ x ∈ l, x ≤ pyMaxD d l := by
  induction l generalizing d with
  | nil => exact ⟨le_refl d, by simp⟩
  | cons a t ih =>
    have hunf : pyMaxD d (a :: t) = pyMaxD (max d a) t := rfl
    refine ⟨?_, ?_⟩
    · rw [hunf]
      exact le_trans (le_max_left d a) (ih (max d a)).1
    · intro x hx
      rw [hunf]
      rcases List.mem_cons.mp hx with h | h
      · subst h
        exact le_trans (le_max_right d x) (ih (max d x)).1
      · exact (ih (max d a)).2 x h


lemma filter_id_eq_nil {l : List Task} {a : ℤ} (h : a ∉ l.map Task.id) :
    l.filter (fun t => t.id = a) = [] := by
  induction l with
  | nil => rfl
  | cons t ts ih =>
    have h1 : ¬(t.id = a) := by
      intro he
      exact h (by rw [← he]; exact List.mem_map_of_mem Task.id (List.mem_cons_self t ts))
    have h2 : a ∉ ts.map Task.id := fun hm => h (by rw [List.map_cons]; exact List.mem_cons_of_mem _ hm)
    rw [List.filter_cons, if_neg (by simp [h1])]
    exact ih h2

lemma length_filter_id_le_one {l : List Task} {a : ℤ}
    (h : (l.map Task.id).Nodup) :
    (l.filter (fun t => t.id = a)).length ≤ 1 := by
  induction l with
  | nil => simp
  | cons t ts ih =>
    rw [List.map_cons, List.nodup_cons] at h
    obtain ⟨hni, hnd⟩ := h
    by_cases he : t.id = a
    · rw [List.filter_cons, if_pos (by simp [he])]
      rw [filter_id_eq_nil (he ▸ hni)]
      simp
    · rw [List.filter_cons, if_neg (by simp [he])]
      exact ih hnd

/-! ### Claim theorems -/

/-- C10: `format_hours` is total on its inputs: for `None` it returns `"N/A"`,
and for every non-negative number of hours it returns `"H hours M minutes"`
where `M` is a multiple of 5 with `0 ≤ M ≤ 55` (the 60-minute case carries
into `H`) and `H + M/60` is within 2.5 minutes (1/24 hour) of the input. -/
theorem format_hours_total_and_accurate :
    formatHours none = "N/A" ∧
    ∀ q : ℚ, 0 ≤ q → ∃ H M : ℤ,
      formatHours (some q) = toString H ++ " hours " ++ toString M ++ " minutes" ∧
      (5 : ℤ) ∣ M ∧ 0 ≤ M ∧ M ≤ 55 ∧
      |((H : ℚ) + (M : ℚ) / 60) - q| ≤ 1/24 := by
  refine ⟨rfl, ?_⟩
  intro q hq
  have hInt : pyInt q = ⌊q⌋ := pyInt_of_nonneg hq
  have h1 : ((⌊q⌋ : ℤ) : ℚ) ≤ q := Int.floor_le q
  have h2 : q < (⌊q⌋ : ℤ) + 1 := Int.lt_floor_add_one q
  set x : ℚ := (q - (⌊q⌋ : ℤ)) * 60 / 5 with hxdef
  set k : ℤ := pythonRound x with hkdef
  have hk : |(k : ℚ) - x| ≤ 1/2 := pythonRound_abs_sub_le x
  have hkabs := abs_le.mp hk
  have hx12 : x = (q - (⌊q⌋ : ℤ)) * 12 := by rw [hxdef]; ring
  have hk0 : 0 ≤ k := by
    have : (-1 : ℚ) < (k : ℚ) := by
      rw [hx12] at hkabs
      nlinarith [hkabs.1, hkabs.2]
    have : (-1 : ℤ) < k := by exact_mod_cast this
    omega
  have hk12 : k ≤ 12 := by
    have : (k : ℚ) < 13 := by
      rw [hx12] at hkabs
      nlinarith [hkabs.1, hkabs.2]
    have : k < (13 : ℤ) := by exact_mod_cast this
    omega
  have hfh : formatHours (some q) =
      toString (if pythonRound ((q - ((⌊q⌋ : ℤ) : ℚ)) * 60 / 5) * 5 = 60 then ⌊q⌋ + 1 else ⌊q⌋) ++ " hours " ++
      toString (if pythonRound ((q - ((⌊q⌋ : ℤ) : ℚ)) * 60 / 5) * 5 = 60 then (0 : ℤ) else pythonRound ((q - ((⌊q⌋ : ℤ) : ℚ)) * 60 / 5) * 5) ++ " minutes" := by
    simp only [formatHours, hInt]
  by_cases hm : k * 5 = 60
  · refine ⟨⌊q⌋ + 1, 0, ?_, ⟨0, by ring⟩, le_refl 0, by norm_num, ?_⟩
    · rw [hfh, ← hkdef, if_pos hm, if_pos hm]
    · have hk12' : k = 12 := by omega
      rw [hk12'] at hkabs
      rw [hx12] at hkabs
      rw [abs_le]
      push_cast
      constructor <;> nlinarith [hkabs.1, hkabs.2]
  · refine ⟨⌊q⌋, k * 5, ?_, ⟨k, by ring⟩, by omega, by omega, ?_⟩
    · rw [hfh, ← hkdef, if_neg hm, if_neg hm]
    · rw [hx12] at hkabs
      rw [abs_le]
      push_cast
      constructor <;> nlinarith [hkabs.1, hkabs.2]

/-- Witness for C10 at the concrete input 3.5 hours. -/
theorem format_hours_total_and_accurate_witness :
    ∃ H M : ℤ,
      formatHours (some (7/2)) = toString H ++ " hours " ++ toString M ++ " minutes" ∧
      (5 : ℤ) ∣ M ∧ 0 ≤ M ∧ M ≤ 55 ∧
      |((H : ℚ) + (M : ℚ) / 60) - 7/2| ≤ 1/24 :=
  format_hours_total_and_accurate.2 (7/2) (by norm_num)

/-- C1: every add-task request stores a task whose `hours` field equals
`max(min_hours, predict_time(...))` (with the clamped feature values), so the
stored predicted hours are at least the task's `min_hours` — for every
possible behaviour of the `predict_time` function of `planner_ai`. -/
theorem add_task_predicted_hours_ge_min :
    ∀ (predict : ℤ → ℚ → ℤ → Option Subject → ℚ) (tasks : List Task)
      (subjects : List Subject) (now : Date) (f : AddTaskForm),
    ∃ t : Task,
      addTask predict tasks subjects now f = tasks ++ [t] ∧
      t.hours = max t.min_hours
        (predict t.complexity t.past_hours (priorityNum f.priority) t.matched_subject) ∧
      t.min_hours ≤ t.hours := by
  intro predict tasks subjects now f
  exact ⟨_, rfl, rfl, le_max_left _ _⟩

/-- C5: the add-task operation clamps `complexity` into `[0, 10]` and floors
`past_hours` and `min_hours` at 0 (nearest valid bound); being a total
function of the form values, it never fails on out-of-range features. -/
theorem add_task_clamps_features :
    ∀ (predict : ℤ → ℚ → ℤ → Option Subject → ℚ) (tasks : List Task)
      (subjects : List Subject) (now : Date) (f : AddTaskForm),
    ∃ t : Task,
      addTask predict tasks subjects now f = tasks ++ [t] ∧
      t.complexity = max 0 (min 10 f.complexity) ∧
      0 ≤ t.complexity ∧ t.complexity ≤ 10 ∧
      t.past_hours = max 0 f.past_hours ∧ 0 ≤ t.past_hours ∧
      t.min_hours = max 0 f.min_hours ∧ 0 ≤ t.min_hours := by
  intro predict tasks subjects now f
  refine ⟨_, rfl, rfl, le_max_left 0 _, ?_, rfl, le_max_left 0 _, rfl, le_max_left 0 _⟩
  exact max_le (by norm_num) (min_le_left 10 _)


/-- C9: the add-task and add-exam operations assign the new record the id
`max(existing ids, 0) + 1`, which is strictly greater than every existing id
in the collection, so id-distinctness of the collection is preserved. -/
theorem add_assigns_fresh_ids :
    (∀ (predict : ℤ → ℚ → ℤ → Option Subject → ℚ) (tasks : List Task)
       (subjects : List Subject) (now : Date) (f : AddTaskForm),
      ∃ t : Task, addTask predict tasks subjects now f = tasks ++ [t] ∧
        t.id = pyMaxD 0 (tasks.map Task.id) + 1 ∧
        (∀ u ∈ tasks, u.id < t.id) ∧
        ((tasks.map Task.id).Nodup →
          ((addTask predict tasks subjects now f).map Task.id).Nodup)) ∧
    (∀ (exams : List Exam) (now : Date) (g : AddExamForm),
      ∃ e : Exam, addExam exams now g = exams ++ [e] ∧
        e.id = pyMaxD 0 (exams.map Exam.id) + 1 ∧
        (∀ u ∈ exams, u.id < e.id) ∧
        ((exams.map Exam.id).Nodup →
          ((addExam exams now g).map Exam.id).Nodup)) := by
  constructor
  · intro predict tasks subjects now f
    have hlt : ∀ u ∈ tasks, u.id < pyMaxD 0 (tasks.map Task.id) + 1 := by
      intro u hu
      have h := (le_pyMaxD 0 (tasks.map Task.id)).2 u.id
        (List.mem_map_of_mem Task.id hu)
      omega
    refine ⟨_, rfl, rfl, hlt, ?_⟩
    intro hnd
    have heq : (addTask predict tasks subjects now f).map Task.id =
        tasks.map Task.id ++ [pyMaxD 0 (tasks.map Task.id) + 1] := by
      simp [addTask]
    rw [heq]
    refine List.Nodup.append hnd (List.nodup_singleton _) ?_
    intro a ha hb
    have h1 : a ≤ pyMaxD 0 (tasks.map Task.id) := (le_pyMaxD 0 _).2 a ha
    have h2 : a = pyMaxD 0 (tasks.map Task.id) + 1 := List.mem_singleton.mp hb
    omega
  · intro exams now g
    have hlt : ∀ u ∈ exams, u.id < pyMaxD 0 (exams.map Exam.id) + 1 := by
      intro u hu
      have h := (le_pyMaxD 0 (exams.map Exam.id)).2 u.id
        (List.mem_map_of_mem Exam.id hu)
      omega
    refine ⟨_, rfl, rfl, hlt, ?_⟩
    intro hnd
    have heq : (addExam exams now g).map Exam.id =
        exams.map Exam.id ++ [pyMaxD 0 (exams.map Exam.id) + 1] := by
      simp [addExam]
    rw [heq]
    refine List.Nodup.append hnd (List.nodup_singleton _) ?_
    intro a ha hb
    have h1 : a ≤ pyMaxD 0 (exams.map Exam.id) := (le_pyMaxD 0 _).2 a ha
    have h2 : a = pyMaxD 0 (exams.map Exam.id) + 1 := List.mem_singleton.mp hb
    omega

/-- Witness for C9 on one-element task and exam stores. -/
theorem add_assigns_fresh_ids_witness :
    (∃ t : Task,
      addTask (fun _ _ _ _ => 2) [sampleTask] [] ⟨2025, 6, 15⟩ sampleTaskForm
        = [sampleTask] ++ [t] ∧
      sampleTask.id < t.id ∧
      ((addTask (fun _ _ _ _ => 2) [sampleTask] [] ⟨2025, 6, 15⟩
          sampleTaskForm).map Task.id).Nodup) ∧
    (∃ e : Exam,
      addExam [sampleExam] ⟨2025, 6, 15⟩ sampleExamForm = [sampleExam] ++ [e] ∧
      sampleExam.id < e.id ∧
      ((addExam [sampleExam] ⟨2025, 6, 15⟩ sampleExamForm).map Exam.id).Nodup) := by
  constructor
  · obtain ⟨t, ht, _, hlt, hnd⟩ := add_assigns_fresh_ids.1
      (fun _ _ _ _ => 2) [sampleTask] [] ⟨2025, 6, 15⟩ sampleTaskForm
    exact ⟨t, ht, hlt sampleTask (by simp), hnd (by decide)⟩
  · obtain ⟨e, he, _, hlt, hnd⟩ := add_assigns_fresh_ids.2
      [sampleExam] ⟨2025, 6, 15⟩ sampleExamForm
    exact ⟨e, he, hlt sampleExam (by simp), hnd (by decide)⟩

/-- C3: the update-exam-progress operation adds `max(0, d)` to the stored
`progress_hours` of every matching non-completed exam and leaves completed
(or non-matching) exams unchanged; moreover no exam-writing operation ever
decreases any stored exam's `progress_hours`. -/
theorem exam_progress_monotone :
    (∀ (exams : List Exam) (eid : ℤ) (d : ℚ) (i : ℕ) (e : Exam),
      exams[i]? = some e →
      (updateExamProgress exams eid d)[i]? =
        some (if e.id = eid ∧ e.completed = false
              then { e with progress_hours := e.progress_hours + max 0 d }
              else e)) ∧
    (∀ (exams : List Exam) (op : ExamOp) (i : ℕ) (e : Exam),
      exams[i]? = some e →
      ∃ e', (applyExamOp exams op)[i]? = some e' ∧
        e.progress_hours ≤ e'.progress_hours) := by
  constructor
  · intro exams eid d i e he
    unfold updateExamProgress
    rw [List.getElem?_map, he]
    rfl
  · intro exams op i e he
    cases op with
    | add now f =>
      have hi : i < exams.length := (List.getElem?_eq_some.mp he).1
      refine ⟨e, ?_, le_refl _⟩
      show (addExam exams now f)[i]? = some e
      unfold addExam
      rw [List.getElem?_append_left hi, he]
    | updateProgress eid d =>
      refine ⟨if e.id = eid ∧ e.completed = false
              then { e with progress_hours := e.progress_hours + max 0 d }
              else e, ?_, ?_⟩
      · unfold applyExamOp updateExamProgress
        rw [List.getElem?_map, he]
        rfl
      · split_ifs with h
        · have : (0 : ℚ) ≤ max 0 d := le_max_left 0 d
          simp only []
          linarith
        · exact le_refl _
    | complete eid actual =>
      refine ⟨if e.id = eid
              then { e with completed := true,
                            actual_hours_spent := some (max 0 actual) }
              else e, ?_, ?_⟩
      · unfold applyExamOp completeExam
        rw [List.getElem?_map, he]
        rfl
      · split_ifs with h
        · exact le_refl _
        · exact le_refl _

/-- Witness for C3: one stored non-completed exam, progress delta 2.5. -/
theorem exam_progress_monotone_witness :
    (updateExamProgress [sampleExam] 1 (5/2))[0]? =
      some (if sampleExam.id = 1 ∧ sampleExam.completed = false
            then { sampleExam with
                     progress_hours := sampleExam.progress_hours + max 0 (5/2) }
            else sampleExam) ∧
    ∃ e', (applyExamOp [sampleExam] (ExamOp.updateProgress 1 (5/2)))[0]? = some e' ∧
      sampleExam.progress_hours ≤ e'.progress_hours := by
  constructor
  · exact exam_progress_monotone.1 [sampleExam] 1 (5/2) 0 sampleExam rfl
  · exact exam_progress_monotone.2 [sampleExam] (ExamOp.updateProgress 1 (5/2)) 0 sampleExam rfl

/-- C4: the `completed` flag of a stored exam is one-way — whichever
exam-writing operation runs (add exam, update progress, complete exam), an
exam already marked completed stays completed. -/
theorem exam_completed_one_way :
    ∀ (exams : List Exam) (op : ExamOp) (i : ℕ) (e : Exam),
      exams[i]? = some e → e.completed = true →
      ∃ e', (applyExamOp exams op)[i]? = some e' ∧ e'.completed = true := by
  intro exams op i e he hc
  cases op with
  | add now f =>
    have hi : i < exams.length := (List.getElem?_eq_some.mp he).1
    refine ⟨e, ?_, hc⟩
    show (addExam exams now f)[i]? = some e
    unfold addExam
    rw [List.getElem?_append_left hi, he]
  | updateProgress eid d =>
    refine ⟨e, ?_, hc⟩
    unfold applyExamOp updateExamProgress
    rw [List.getElem?_map, he]
    have : ¬(e.id = eid ∧ e.completed = false) := by
      rintro ⟨-, hf⟩
      rw [hc] at hf
      exact Bool.noConfusion hf
    rw [Option.map_some', if_neg this]
  | complete eid actual =>
    refine ⟨if e.id = eid
            then { e with completed := true,
                          actual_hours_spent := some (max 0 actual) }
            else e, ?_, ?_⟩
    · unfold applyExamOp completeExam
      rw [List.getElem?_map, he]
      rfl
    · split_ifs with h
      · rfl
      · exact hc

/-- Witness for C4: a completed exam stays completed across an update. -/
theorem exam_completed_one_way_witness :
    ∃ e', (applyExamOp [sampleExamDone] (ExamOp.updateProgress 2 3))[0]? = some e' ∧
      e'.completed = true :=
  exam_completed_one_way [sampleExamDone] (ExamOp.updateProgress 2 3) 0
    sampleExamDone rfl rfl

/-- Counterexample to C2 as stated: a stored task that is already completed
still triggers a `retrain_model` call when its id is submitted to the
complete-task operation (the loop in `home` has no completed-check, unlike
the update-exam-progress branch). -/
theorem complete_task_retrains_completed_counterexample :
    sampleTaskDone.completed = true ∧
    (completeTask [sampleTaskDone] sampleTaskDone.id 2 30 ⟨2025, 6, 16⟩).2 ≠ [] := by
  refine ⟨rfl, ?_⟩
  decide

/-- C2 amended: marking a task complete performs one `retrain_model` call per
stored task whose id equals the submitted id — regardless of whether that
task was already completed — hence at most one call when stored ids are
distinct; an id matching no stored task triggers no retraining. -/
theorem complete_task_retrains_per_matching_id :
    ∀ (tasks : List Task) (task_id : ℤ) (hours minutes : ℤ) (today : Date),
      ((completeTask tasks task_id hours minutes today).2).length =
        (tasks.filter (fun t => t.id = task_id)).length ∧
      ((tasks.map Task.id).Nodup →
        ((completeTask tasks task_id hours minutes today).2).length ≤ 1) := by
  intro tasks task_id hours minutes today
  have h : ((completeTask tasks task_id hours minutes today).2).length =
      (tasks.filter (fun t => t.id = task_id)).length := by
    simp [completeTask]
  refine ⟨h, ?_⟩
  intro hnd
  rw [h]
  exact length_filter_id_le_one hnd

/-- Witness for the amended C2 on a one-task store. -/
theorem complete_task_retrains_per_matching_id_witness :
    ((completeTask [sampleTaskDone] 7 2 30 ⟨2025, 6, 16⟩).2).length =
      (([sampleTaskDone] : List Task).filter (fun t => t.id = 7)).length ∧
    ((completeTask [sampleTaskDone] 7 2 30 ⟨2025, 6, 16⟩).2).length ≤ 1 := by
  obtain ⟨h1, h2⟩ :=
    complete_task_retrains_per_matching_id [sampleTaskDone] 7 2 30 ⟨2025, 6, 16⟩
  exact ⟨h1, h2 (by decide)⟩

/-- C6: `add_saved_schedule` enforces the cap of `MAX_SAVED_SCHEDULES = 5`:
with 5 or more schedules stored it returns `(False, message)` and leaves the
stored list unchanged; with fewer it appends exactly one schedule and
returns `(True, "Saved.")`. -/
theorem add_saved_schedule_cap :
    ∀ (α : Type) (name : String) (items : List α) (now : String)
      (schedules : List (SavedSchedule α)),
      (MAX_SAVED_SCHEDULES ≤ schedules.length →
        addSavedSchedule name items now schedules =
          (schedules, false, "You can only save up to 5 schedules.")) ∧
      (schedules.length < MAX_SAVED_SCHEDULES →
        ∃ s, addSavedSchedule name items now schedules =
          (schedules ++ [s], true, "Saved.")) := by
  intro α name items now schedules
  constructor
  · intro h
    unfold addSavedSchedule
    rw [if_pos h]
  · intro h
    refine ⟨⟨newScheduleId schedules,
             if name.trim ≠ "" then name
             else "Schedule " ++ toString (newScheduleId schedules),
             now, now, items⟩, ?_⟩
    unfold addSavedSchedule
    rw [if_neg (not_le.mpr h)]

/-- Witness for C6: a full 5-schedule store rejects, an empty store accepts. -/
theorem add_saved_schedule_cap_witness :
    addSavedSchedule "plan" [42] "2025-06-15 10:00:00" fiveSchedules =
      (fiveSchedules, false, "You can only save up to 5 schedules.") ∧
    ∃ s, addSavedSchedule "plan" ([42] : List ℕ) "2025-06-15 10:00:00" [] =
      ([] ++ [s], true, "Saved.") := by
  constructor
  · exact (add_saved_schedule_cap ℕ "plan" [42] "2025-06-15 10:00:00"
      fiveSchedules).1 (by decide)
  · exact (add_saved_schedule_cap ℕ "plan" [42] "2025-06-15 10:00:00" []).2
      (by decide)

/-- C7: `refresh_all_saved_schedules` regenerates every saved schedule in
place — every stored schedule gets the freshly generated items and a new
`updated_at`, while its `id`, `name`, `created_at` and the number of stored
schedules are unchanged; with no stored schedules nothing changes. -/
theorem refresh_all_saved_schedules_in_place :
    ∀ (α : Type) (regenerated : List α) (now : String)
      (schedules : List (SavedSchedule α)),
      (refreshAllSavedSchedules regenerated now schedules).length =
        schedules.length ∧
      (∀ (i : ℕ) (s : SavedSchedule α), schedules[i]? = some s →
        (refreshAllSavedSchedules regenerated now schedules)[i]? =
          some { s with items := regenerated, updated_at := now }) ∧
      (schedules = [] →
        refreshAllSavedSchedules regenerated now schedules = schedules) := by
  intro α regenerated now schedules
  refine ⟨?_, ?_, ?_⟩
  · unfold refreshAllSavedSchedules
    split_ifs with h
    · rfl
    · simp
  · intro i s hs
    unfold refreshAllSavedSchedules
    split_ifs with h
    · rw [List.isEmpty_iff] at h
      subst h
      simp at hs
    · rw [List.getElem?_map, hs]
      rfl
  · intro h
    subst h
    rfl

/-- Witness for C7 on a one-schedule store and on an empty store. -/
theorem refresh_all_saved_schedules_in_place_witness :
    (refreshAllSavedSchedules [9] "2025-06-16 09:00:00" [sampleSchedule]).length
      = 1 ∧
    (refreshAllSavedSchedules [9] "2025-06-16 09:00:00" [sampleSchedule])[0]? =
      some { sampleSchedule with
               items := ([9] : List ℕ),
               updated_at := "2025-06-16 09:00:00" } ∧
    refreshAllSavedSchedules ([9] : List ℕ) "2025-06-16 09:00:00"
      ([] : List (SavedSchedule ℕ)) = [] := by
  obtain ⟨h1, h2, -⟩ :=
    refresh_all_saved_schedules_in_place ℕ [9] "2025-06-16 09:00:00"
      [sampleSchedule]
  refine ⟨h1, h2 0 sampleSchedule rfl, ?_⟩
  exact (refresh_all_saved_schedules_in_place ℕ [9] "2025-06-16 09:00:00"
    []).2.2 rfl

/-- C8: on add-task and add-exam, a deadline/exam-date string that does not
parse as `YYYY-MM-DD` is replaced by the current datetime, and a string that
does parse is stored as the parsed date — the stored field is always a real
date value and the operation never raises. -/
theorem add_date_fallback_to_now :
    (∀ (predict : ℤ → ℚ → ℤ → Option Subject → ℚ) (tasks : List Task)
       (subjects : List Subject) (now : Date) (f : AddTaskForm),
      ∃ t : Task, addTask predict tasks subjects now f = tasks ++ [t] ∧
        (parseDateYMD f.deadline = none → t.deadline = now) ∧
        (∀ d : Date, parseDateYMD f.deadline = some d → t.deadline = d)) ∧
    (∀ (exams : List Exam) (now : Date) (g : AddExamForm),
      ∃ e : Exam, addExam exams now g = exams ++ [e] ∧
        (parseDateYMD g.exam_date = none → e.exam_date = now) ∧
        (∀ d : Date, parseDateYMD g.exam_date = some d → e.exam_date = d)) := by
  constructor
  · intro predict tasks subjects now f
    refine ⟨_, rfl, ?_, ?_⟩
    · intro h
      show (parseDateYMD f.deadline).getD now = now
      rw [h]
      rfl
    · intro d h
      show (parseDateYMD f.deadline).getD now = d
      rw [h]
      rfl
  · intro exams now g
    refine ⟨_, rfl, ?_, ?_⟩
    · intro h
      show (parseDateYMD g.exam_date).getD now = now
      rw [h]
      rfl
    · intro d h
      show (parseDateYMD g.exam_date).getD now = d
      rw [h]
      rfl

/-- Witness for C8: the malformed deadline "soon" falls back to the current
datetime; the well-formed exam date "2025-09-01" is stored as parsed. -/
theorem add_date_fallback_to_now_witness :
    (∃ t : Task,
      addTask (fun _ _ _ _ => 2) [] [] ⟨2025, 6, 15⟩
          { sampleTaskForm with deadline := "soon" } = [] ++ [t] ∧
      t.deadline = ⟨2025, 6, 15⟩) ∧
    (∃ e : Exam,
      addExam [] ⟨2025, 6, 15⟩ { sampleExamForm with exam_date := "2025-09-01" }
          = [] ++ [e] ∧
      e.exam_date = ⟨2025, 9, 1⟩) := by
  constructor
  · obtain ⟨t, ht, hnone, -⟩ := add_date_fallback_to_now.1
      (fun _ _ _ _ => 2) [] [] ⟨2025, 6, 15⟩
      { sampleTaskForm with deadline := "soon" }
    exact ⟨t, ht, hnone (by decide)⟩
  · obtain ⟨e, he, -, hsome⟩ := add_date_fallback_to_now.2 [] ⟨2025, 6, 15⟩
      { sampleExamForm with exam_date := "2025-09-01" }
    exact ⟨e, he, hsome ⟨2025, 9, 1⟩ (by decide)⟩

end SmartStudyPlanner
